import Mathlib

/-!
Shallow embedding of microforms/forms.py: conversion of micromodel field
declarations into wtforms field definitions (model_fields / model_form and
the MicroModelConverter dispatch), together with proofs about it.
-/

namespace Microforms

/-- Python runtime values appearing as field metadata: None (here: null),
booleans, strings, integers, and model class objects. -/
inductive PyVal where
  | null
  | bool (b : Bool)
  | str (s : String)
  | int (n : Int)
  | cls (name : String)
deriving DecidableEq, Repr

/-- wtforms validator objects: the ones this library constructs
(validators.Optional, validators.email, validators.ip_address,
validators.url) plus arbitrary caller-supplied validators. -/
inductive Validator where
  | optional
  | email
  | ip_address
  | url
  | custom (name : String)
deriving DecidableEq, Repr

/-- wtforms filter callables: the time_only closure built by conv_TimeField
plus arbitrary caller-supplied filters. -/
inductive VFilter where
  | time_only
  | custom (name : String)
deriving DecidableEq, Repr

/-- The destination wtforms field classes used by the simple (table driven)
conversions of DEFAULT_SIMPLE_CONVERSIONS. -/
inductive SimpleTy where
  | integerField
  | decimalField
  | fileField
  | dateTimeField
  | dateField
  | booleanField
  | textField
  | textAreaField
  | uriFileField
  | uriField
deriving DecidableEq, Repr

/-- The kwargs dict assembled by MicroModelConverterBase.convert. -/
structure Kwargs where
  label : PyVal
  description : PyVal
  validators : List Validator
  filters : List VFilter
  default : PyVal
deriving DecidableEq, Repr

/-- A per-field override dict, one value of the field_args mapping given to
model_fields; a key that is absent is represented by none. -/
structure FieldArgs where
  label : Option PyVal := none
  description : Option PyVal := none
  validators : Option (List Validator) := none
  filters : Option (List VFilter) := none
  default : Option PyVal := none
deriving DecidableEq, Repr

/-- The attributes of a micromodel field descriptor that convert reads:
verbose_name, help_text, required and default. -/
structure FieldMeta where
  verbose_name : PyVal
  help_text : PyVal
  required : Bool
  default : PyVal
deriving DecidableEq, Repr

/-- A micromodel field descriptor. A scalar field carries its Python type
name (e.g. "CharField"); ModelField and ModelCollectionField carry the
wrapped model class (its name and its _clsfields, inlined);
FieldCollectionField carries its inner field instance. -/
inductive MField where
  | scalar (tyName : String) (meta : FieldMeta)
  | modelField (meta : FieldMeta) (wrappedName : String)
      (wrappedFields : List (String × MField))
  | modelCollectionField (meta : FieldMeta) (wrappedName : String)
      (wrappedFields : List (String × MField))
  | fieldCollectionField (meta : FieldMeta) (inner : MField)

/-- A micromodel class: its __name__ and its ordered _clsfields mapping. -/
structure MModel where
  name : String
  clsfields : List (String × MField)

/-- The coercion callables installed on generated choice fields; the only
one in the code is coerce_nullbool from conv_NullBooleanField. -/
inductive Coercion where
  | nullbool
deriving DecidableEq, Repr

/-- A constructed destination wtforms field object:
a table-driven field_type(**kwargs); DateTimeField(format=..., **kwargs)
from conv_TimeField; SelectField(choices=..., coerce=..., **kwargs) from
conv_NullBooleanField; FormField(form, default=wrapped_class) from
conv_ModelField (the generated sub-form is inlined as name plus fields);
FieldList(inner) from conv_ModelCollectionField / conv_FieldCollectionField
(the inner unbound field may be absent when the inner conversion failed). -/
inductive DstField where
  | simple (ty : SimpleTy) (kwargs : Kwargs)
  | dateTimeFmt (format : String) (kwargs : Kwargs)
  | select (choices : List (PyVal × String)) (coerce : Coercion) (kwargs : Kwargs)
  | formField (formName : String) (formFields : List (String × DstField))
      (default : PyVal)
  | fieldList (inner : Option DstField)

def MField.meta : MField → FieldMeta
  | .scalar _ m => m
  | .modelField m _ _ => m
  | .modelCollectionField m _ _ => m
  | .fieldCollectionField m _ => m

/-- type(field).__name__, on which convert dispatches. -/
def MField.tyName : MField → String
  | .scalar n _ => n
  | .modelField _ _ _ => "ModelField"
  | .modelCollectionField _ _ _ => "ModelCollectionField"
  | .fieldCollectionField _ _ => "FieldCollectionField"

/-- MicroModelConverter.DEFAULT_SIMPLE_CONVERSIONS: destination field type
to list of source type names. -/
def DEFAULT_SIMPLE_CONVERSIONS : List (SimpleTy × List String) :=
  [(.integerField, ["AutoField", "IntegerField", "SmallIntegerField",
      "PositiveIntegerField", "PositiveSmallIntegerField"]),
   (.decimalField, ["DecimalField", "FloatField"]),
   (.fileField, ["FileField", "FilePathField", "ImageField"]),
   (.dateTimeField, ["DateTimeField"]),
   (.dateField, ["DateField"]),
   (.booleanField, ["BooleanField"]),
   (.textField, ["CharField", "PhoneNumberField", "SlugField"]),
   (.textAreaField, ["TextField", "XMLField", "JSONField"]),
   (.uriFileField, ["URIFileField"]),
   (.uriField, ["URIField", "URLField"])]

/-- The converters table of a MicroModelConverter instance: source type name
to destination simple field type (each table entry is a make_simple_converter
closure, determined by its destination field type). -/
abbrev Converters := List (String × SimpleTy)

/-- MicroModelConverter.__init__: build the converters dict from a
simple_conversions table. -/
def buildConverters (sc : List (SimpleTy × List String)) : Converters :=
  sc.foldl (fun acc p => acc ++ p.2.map (fun n => (n, p.1))) []

/-- The converters dict of MicroModelConverter() with no extra converters. -/
def default_converters : Converters := buildConverters DEFAULT_SIMPLE_CONVERSIONS

/-- Dict lookup: self.converters.get(ftype). -/
def lookupConv (conv : Converters) (n : String) : Option SimpleTy :=
  (conv.find? (fun p => p.1 == n)).map (fun p => p.2)

/-- kwargs.update(field_args): each key present in the override dict
replaces the assembled value. -/
def updateKwargs (k : Kwargs) (a : FieldArgs) : Kwargs :=
  { label := a.label.getD k.label,
    description := a.description.getD k.description,
    validators := a.validators.getD k.validators,
    filters := a.filters.getD k.filters,
    default := a.default.getD k.default }

/-- The kwargs assembly of MicroModelConverterBase.convert: base keyword
set from the field metadata, update with field_args when truthy (an empty
dict updates nothing, so it behaves like none), then append
validators.Optional() when the field is not required. Python list.append
adds at the end. -/
def assembleKwargs (field : MField) (fa : Option FieldArgs) : Kwargs :=
  let kwargs : Kwargs :=
    { label := field.meta.verbose_name,
      description := field.meta.help_text,
      validators := [],
      filters := [],
      default := field.meta.default }
  let kwargs := match fa with
    | some a => updateKwargs kwargs a
    | none => kwargs
  if field.meta.required then kwargs
  else { kwargs with validators := kwargs.validators ++ [.optional] }

/-- The dict literal inside coerce_nullbool. -/
def nullbool_map : List (PyVal × PyVal) :=
  [(.str "None", .null), (.null, .null),
   (.str "True", .bool true), (.str "False", .bool false)]

/-- Strip leading and trailing whitespace, as Python int() does on strings. -/
def stripWS (l : List Char) : List Char :=
  ((l.dropWhile Char.isWhitespace).reverse.dropWhile Char.isWhitespace).reverse

def digitsVal (l : List Char) : Nat :=
  l.foldl (fun a c => a * 10 + (c.toNat - 48)) 0

/-- Python int(s) on a string: optional sign and decimal digits after
stripping whitespace; none models a raised ValueError. -/
def pyInt (s : String) : Option Int :=
  let t := stripWS s.toList
  let signDigits : Int × List Char :=
    match t with
    | '-' :: rest => (-1, rest)
    | '+' :: rest => (1, rest)
    | _ => (1, t)
  if signDigits.2 ≠ [] ∧ signDigits.2.all Char.isDigit then
    some (signDigits.1 * (digitsVal signDigits.2 : Int))
  else
    none

/-- bool(int(value)): defined on strings that parse as integers, on
integers and on booleans; none models a raised exception. -/
def pyBoolInt (v : PyVal) : Option PyVal :=
  match v with
  | .str s => (pyInt s).map (fun n => .bool (n != 0))
  | .int n => some (.bool (n != 0))
  | .bool b => some (.bool b)
  | _ => none

/-- The coerce_nullbool closure of conv_NullBooleanField: dict lookup
first, otherwise bool(int(value)). -/
def coerce_nullbool (value : PyVal) : Option PyVal :=
  match (nullbool_map.find? (fun p => p.1 == value)).map (fun p => p.2) with
  | some r => some r
  | none => pyBoolInt value

/-- Run a stored coercion callable. -/
def Coercion.run : Coercion → PyVal → Option PyVal
  | .nullbool => coerce_nullbool

/-- The choices tuple of conv_NullBooleanField. -/
def nullbool_choices : List (PyVal × String) :=
  [(.null, "Unknown"), (.bool true, "Yes"), (.bool false, "No")]

mutual

/-- MicroModelConverterBase.convert for a MicroModelConverter whose table is
conv. Returns the constructed field (none when no converter is found) and
the final state of the kwargs dict (whose validators and filters lists are
mutated in place by the appends). Dispatch: the converters table first, then
the conv_<type name> methods; the constructor of the field determines its
type name, matching the Python getattr dispatch. The model argument is
threaded but unused by every converter, so it is omitted here.
conv_ModelField / conv_ModelCollectionField call model_form on the wrapped
class with all defaults, which is convertList (see
model_fields_default_eq_convertList); conv_FieldCollectionField calls
self.convert on the inner field with an empty (hence falsy) field_args. -/
def convert (conv : Converters) (field : MField) (fa : Option FieldArgs) :
    Option DstField × Kwargs :=
  let kwargs := assembleKwargs field fa
  match lookupConv conv field.tyName with
  | some ty => (some (.simple ty kwargs), kwargs)
  | none =>
    match field with
    | .scalar n _ =>
      if n == "TimeField" then
        let kwargs := { kwargs with filters := kwargs.filters ++ [.time_only] }
        (some (.dateTimeFmt "%H:%M:%S" kwargs), kwargs)
      else if n == "EmailField" then
        let kwargs := { kwargs with validators := kwargs.validators ++ [.email] }
        (some (.simple .textField kwargs), kwargs)
      else if n == "IPAddressField" then
        let kwargs := { kwargs with validators := kwargs.validators ++ [.ip_address] }
        (some (.simple .textField kwargs), kwargs)
      else if n == "URLField" then
        -- unreachable with the default table, which maps "URLField"
        let kwargs := { kwargs with validators := kwargs.validators ++ [.url] }
        (some (.simple .textField kwargs), kwargs)
      else if n == "NullBooleanField" then
        (some (.select nullbool_choices .nullbool kwargs), kwargs)
      else
        (none, kwargs)
    | .modelField _ w fl =>
        (some (.formField (w ++ "Form") (convertList fl) (.cls w)), kwargs)
    | .modelCollectionField _ w fl =>
        (some (.fieldList (some (.formField (w ++ "Form") (convertList fl)
          (.cls w)))), kwargs)
    | .fieldCollectionField _ inner =>
        (some (.fieldList (convert conv inner none).1), kwargs)

/-- The model_fields loop at its default arguments (no filters, no
field_args, default converter), as invoked by model_form from
conv_ModelField and conv_ModelCollectionField. -/
def convertList (flds : List (String × MField)) : List (String × DstField) :=
  match flds with
  | [] => []
  | (n, g) :: rest =>
    match (convert default_converters g none).1 with
    | some d => (n, d) :: convertList rest
    | none => convertList rest

end

/-- Python truthiness of the optional only / exclude collections: None and
an empty collection are falsy. -/
def pyTruthy (o : Option (List String)) : Bool :=
  match o with
  | none => false
  | some l => !l.isEmpty

/-- field_args.get(name). -/
def lookupFA (fa : List (String × FieldArgs)) (n : String) : Option FieldArgs :=
  (fa.find? (fun p => p.1 == n)).map (fun p => p.2)

/-- model_fields: iterate model._clsfields.items() in order, filter by only
(when truthy) else by exclude (when truthy), convert each retained field
with its per-field overrides, and keep the non-None results in order. -/
def model_fields (model : MModel) (only exclude : Option (List String))
    (field_args : List (String × FieldArgs)) (converter : Option Converters) :
    List (String × DstField) :=
  let conv := converter.getD default_converters
  let flds := model.clsfields
  let flds :=
    if pyTruthy only then flds.filter (fun x => (only.getD []).contains x.1)
    else if pyTruthy exclude then
      flds.filter (fun x => !((exclude.getD []).contains x.1))
    else flds
  flds.filterMap (fun x =>
    ((convert conv x.2 (lookupFA field_args x.1)).1).map (fun d => (x.1, d)))

/-- The generated form class: its name and its ordered field dict. The
base_class parameter of model_form only affects the created class object
itself, not the field set, and is not modelled. -/
structure FormSpec where
  name : String
  fields : List (String × DstField)

/-- model_form: model_fields plus the synthesized class name. -/
def model_form (model : MModel) (only exclude : Option (List String))
    (field_args : List (String × FieldArgs)) (converter : Option Converters) :
    FormSpec :=
  ⟨model.name ++ "Form", model_fields model only exclude field_args converter⟩

/-- Whether convert finds a converter for the field: a table entry for its
type name, or a conv_<type name> method (the scalar ones are conv_TimeField,
conv_EmailField, conv_IPAddressField, conv_URLField, conv_NullBooleanField;
the composite constructors always have one). -/
def hasConverter (conv : Converters) (field : MField) : Bool :=
  (lookupConv conv field.tyName).isSome ||
    (match field with
     | .scalar n _ =>
        ["TimeField", "EmailField", "IPAddressField", "URLField",
         "NullBooleanField"].contains n
     | _ => true)

/-- The wtforms class of a constructed destination field. -/
def dstClass : DstField → String
  | .simple ty _ =>
    match ty with
    | .integerField => "IntegerField"
    | .decimalField => "DecimalField"
    | .fileField => "FileField"
    | .dateTimeField => "DateTimeField"
    | .dateField => "DateField"
    | .booleanField => "BooleanField"
    | .textField => "TextField"
    | .textAreaField => "TextAreaField"
    | .uriFileField => "URIFileField"
    | .uriField => "URIField"
  | .dateTimeFmt _ _ => "DateTimeField"
  | .select _ _ _ => "SelectField"
  | .formField _ _ _ => "FormField"
  | .fieldList _ => "FieldList"

/-- Whether a constructed destination field received a validators list
containing an Optional validator. FormField and FieldList are constructed
without any kwargs, hence without validators. -/
def DstField.carriesOptional : DstField → Bool
  | .simple _ k => k.validators.contains .optional
  | .dateTimeFmt _ k => k.validators.contains .optional
  | .select _ _ k => k.validators.contains .optional
  | .formField _ _ _ => false
  | .fieldList _ => false

/-- The caller-visible state of a per-field override dict after convert.
dict.update copies references, so when the dict supplies a validators (or
filters) list, kwargs aliases the very list object the caller passed, and
the appends inside convert mutate it in place; the dict keys and its other
values are never reassigned. -/
def fieldArgsAfterConvert (conv : Converters) (field : MField) (a : FieldArgs) :
    FieldArgs :=
  let k := (convert conv field (some a)).2
  { a with
    validators := a.validators.map (fun _ => k.validators),
    filters := a.filters.map (fun _ => k.filters) }

/-- The validators value supplied by an optional override dict. -/
def suppliedValidators : Option FieldArgs → Option (List Validator)
  | none => none
  | some a => a.validators

/-- Field metadata of a plain required micromodels field with no explicit
verbose_name, help_text or default. -/
def plainMeta : FieldMeta := ⟨.null, .null, true, .null⟩

/-- The TestModel of microforms/tests.py: six fields in declaration order,
five CharFields and one FieldCollectionField of a CharField. -/
def testModel : MModel :=
  ⟨"TestModel",
   [("title", .scalar "CharField" plainMeta),
    ("body", .scalar "CharField" plainMeta),
    ("images", .fieldCollectionField plainMeta (.scalar "CharField" plainMeta)),
    ("field4", .scalar "CharField" plainMeta),
    ("field5", .scalar "CharField" plainMeta),
    ("afield", .scalar "CharField" plainMeta)]⟩

/-- Field metadata of a field declared with required=False. -/
def notReqMeta : FieldMeta := ⟨.null, .null, false, .null⟩

/-- A two-field model used as a concrete input. -/
def exModelAB : MModel :=
  ⟨"M", [("a", .scalar "CharField" plainMeta), ("b", .scalar "CharField" plainMeta)]⟩

/-- A per-field override dict that supplies an (initially empty) validators
list, as in field_args with a "validators" key. -/
def faValidatorsEmpty : FieldArgs := { validators := some [] }

/-- convert finds a converter exactly when hasConverter says so: the result
is present iff the type name is in the table or a conv_ method exists. -/
theorem convert_fst_isSome (conv : Converters) (field : MField) (fa : Option FieldArgs) :
    ((convert conv field fa).1).isSome = hasConverter conv field := by
  cases field with
  | scalar n m =>
    simp only [convert, hasConverter, MField.tyName]
    cases h : lookupConv conv n with
    | some ty => simp
    | none =>
      simp only [Option.isSome_none, Bool.false_or]
      split_ifs with h1 h2 h3 h4 h5 <;>
        simp_all [List.contains_cons]
  | modelField m w fl =>
    simp only [convert, hasConverter, MField.tyName]
    cases h : lookupConv conv "ModelField" <;> simp
  | modelCollectionField m w fl =>
    simp only [convert, hasConverter, MField.tyName]
    cases h : lookupConv conv "ModelCollectionField" <;> simp
  | fieldCollectionField m inner =>
    simp only [convert, hasConverter, MField.tyName]
    cases h : lookupConv conv "FieldCollectionField" <;> simp

/-- The names surviving the conversion loop are the declared names whose
field has a converter, in order. -/
theorem filterMap_convert_keys (conv : Converters) (fa : List (String × FieldArgs))
    (flds : List (String × MField)) :
    (flds.filterMap (fun x =>
        ((convert conv x.2 (lookupFA fa x.1)).1).map (fun d => (x.1, d)))).map Prod.fst =
      (flds.filter (fun x => hasConverter conv x.2)).map Prod.fst := by
  induction flds with
  | nil => simp
  | cons a rest ih =>
    have hs := convert_fst_isSome conv a.2 (lookupFA fa a.1)
    cases hr : (convert conv a.2 (lookupFA fa a.1)).1 with
    | none =>
      rw [hr] at hs
      simp only [List.filterMap_cons, hr, Option.map_none', List.filter_cons, ← hs]
      simpa using ih
    | some d =>
      rw [hr] at hs
      simp only [List.filterMap_cons, hr, Option.map_some', List.filter_cons, ← hs]
      simpa using ih

/-- Key order of model_fields with no filters, for an explicit converter. -/
theorem model_fields_keys_none_filters (m : MModel) (fa : List (String × FieldArgs))
    (conv : Converters) :
    (model_fields m none none fa (some conv)).map Prod.fst =
      (m.clsfields.filter (fun x => hasConverter conv x.2)).map Prod.fst := by
  simp only [model_fields, pyTruthy, Option.getD_some]
  exact filterMap_convert_keys conv fa m.clsfields

/-- The conversion loop at default arguments is convertList. -/
theorem filterMap_convert_default (flds : List (String × MField)) :
    flds.filterMap (fun x =>
        ((convert default_converters x.2 none).1).map (fun d => (x.1, d))) =
      convertList flds := by
  induction flds with
  | nil => simp [convertList]
  | cons a rest ih =>
    cases hr : (convert default_converters a.2 none).1 with
    | none => simp [List.filterMap_cons, hr, convertList, ih]
    | some d => simp [List.filterMap_cons, hr, convertList, ih]

/-- model_fields called the way model_form calls it from conv_ModelField
(no filters, no field_args, default converter) is exactly convertList. -/
theorem model_fields_default_eq_convertList (nm : String)
    (flds : List (String × MField)) :
    model_fields ⟨nm, flds⟩ none none [] none = convertList flds := by
  simp only [model_fields, pyTruthy, lookupFA, List.find?_nil, Option.map_none',
    Option.getD_none]
  simpa using filterMap_convert_default flds

/-- kwargs validator list when field_args supplies no validators: empty for
a required field, the Optional validator for a not-required one. -/
theorem assembleKwargs_validators_none (field : MField) (fa : Option FieldArgs)
    (h : suppliedValidators fa = none) :
    (assembleKwargs field fa).validators =
      if field.meta.required then [] else [.optional] := by
  cases fa with
  | none =>
    simp [assembleKwargs]
    split_ifs <;> simp
  | some a =>
    simp only [suppliedValidators] at h
    simp [assembleKwargs, updateKwargs, h]
    split_ifs <;> simp

/-- kwargs validator list when field_args supplies validators: the supplied
list, with the Optional validator appended when not required. -/
theorem assembleKwargs_validators_some (field : MField) (fa : Option FieldArgs)
    (v : List Validator) (h : suppliedValidators fa = some v) :
    (assembleKwargs field fa).validators =
      v ++ (if field.meta.required then [] else [.optional]) := by
  cases fa with
  | none => simp [suppliedValidators] at h
  | some a =>
    simp only [suppliedValidators] at h
    simp [assembleKwargs, updateKwargs, h]
    split_ifs <;> simp

/-- kwargs filter list when field_args supplies filters: exactly the
supplied list (the required flag only touches validators). -/
theorem assembleKwargs_filters_some (field : MField) (a : FieldArgs)
    (l : List VFilter) (h : a.filters = some l) :
    (assembleKwargs field (some a)).filters = l := by
  simp [assembleKwargs, updateKwargs, h]
  split_ifs <;> simp

/-- Every path through convert only appends to the kwargs validator list. -/
theorem convert_snd_validators (conv : Converters) (field : MField)
    (fa : Option FieldArgs) :
    ∃ w, ((convert conv field fa).2).validators =
      (assembleKwargs field fa).validators ++ w := by
  cases field with
  | scalar n m =>
    simp only [convert, MField.tyName]
    cases h : lookupConv conv n with
    | some ty => exact ⟨[], by simp⟩
    | none =>
      split_ifs with hT hE hI hU hN
      · exact ⟨[], by simp⟩
      · exact ⟨[.email], by simp⟩
      · exact ⟨[.ip_address], by simp⟩
      · exact ⟨[.url], by simp⟩
      · exact ⟨[], by simp⟩
      · exact ⟨[], by simp⟩
  | modelField m w fl =>
    cases h : lookupConv conv "ModelField" with
    | some ty => exact ⟨[], by simp [convert, MField.tyName, h]⟩
    | none => exact ⟨[], by simp [convert, MField.tyName, h]⟩
  | modelCollectionField m w fl =>
    cases h : lookupConv conv "ModelCollectionField" with
    | some ty => exact ⟨[], by simp [convert, MField.tyName, h]⟩
    | none => exact ⟨[], by simp [convert, MField.tyName, h]⟩
  | fieldCollectionField m inner =>
    cases h : lookupConv conv "FieldCollectionField" with
    | some ty => exact ⟨[], by simp [convert, MField.tyName, h]⟩
    | none => exact ⟨[], by simp [convert, MField.tyName, h]⟩

/-- Every path through convert only appends to the kwargs filter list. -/
theorem convert_snd_filters (conv : Converters) (field : MField)
    (fa : Option FieldArgs) :
    ∃ w, ((convert conv field fa).2).filters =
      (assembleKwargs field fa).filters ++ w := by
  cases field with
  | scalar n m =>
    simp only [convert, MField.tyName]
    cases h : lookupConv conv n with
    | some ty => exact ⟨[], by simp⟩
    | none =>
      split_ifs with hT hE hI hU hN
      · exact ⟨[.time_only], by simp⟩
      · exact ⟨[], by simp⟩
      · exact ⟨[], by simp⟩
      · exact ⟨[], by simp⟩
      · exact ⟨[], by simp⟩
      · exact ⟨[], by simp⟩
  | modelField m w fl =>
    cases h : lookupConv conv "ModelField" with
    | some ty => exact ⟨[], by simp [convert, MField.tyName, h]⟩
    | none => exact ⟨[], by simp [convert, MField.tyName, h]⟩
  | modelCollectionField m w fl =>
    cases h : lookupConv conv "ModelCollectionField" with
    | some ty => exact ⟨[], by simp [convert, MField.tyName, h]⟩
    | none => exact ⟨[], by simp [convert, MField.tyName, h]⟩
  | fieldCollectionField m inner =>
    cases h : lookupConv conv "FieldCollectionField" with
    | some ty => exact ⟨[], by simp [convert, MField.tyName, h]⟩
    | none => exact ⟨[], by simp [convert, MField.tyName, h]⟩

/-- The assembled kwargs of a not-required field always contains the
Optional validator, whether or not field_args supplied validators. -/
theorem optional_mem_assembleKwargs (field : MField) (fa : Option FieldArgs)
    (h : field.meta.required = false) :
    Validator.optional ∈ (assembleKwargs field fa).validators := by
  cases hv : suppliedValidators fa with
  | none =>
    rw [assembleKwargs_validators_none _ _ hv, h]
    simp
  | some v =>
    rw [assembleKwargs_validators_some _ _ v hv, h]
    simp

/-- Claim C1: with no only or exclude filter and the default converter,
model_fields returns exactly the declared fields whose type has a registered
or conventionally named converter, with key order equal to the declaration
order; in particular the six-field test model yields, through model_form,
the field name order title, body, images, field4, field5, afield. -/
theorem c1_declared_order_preserved :
    (∀ (m : MModel) (fa : List (String × FieldArgs)),
       (model_fields m none none fa none).map Prod.fst =
         (m.clsfields.filter
            (fun x => hasConverter default_converters x.2)).map Prod.fst) ∧
    (model_form testModel none none [] none).fields.map Prod.fst =
      ["title", "body", "images", "field4", "field5", "afield"] := by
  constructor
  · intro m fa
    exact model_fields_keys_none_filters m fa default_converters
  · rfl

/-- Counterexample to claim C2: when only is given as an empty collection
together with exclude = ["a"] on a two-field model, the result is ["b"];
the claim as stated (only takes precedence whenever it is given, retaining
exactly the declared names in only) predicts the empty field set. -/
theorem c2_cex_empty_only_not_precedent :
    (model_fields exModelAB (some []) (some ["a"]) [] none).map Prod.fst = ["b"] ∧
    ¬((model_fields exModelAB (some []) (some ["a"]) [] none).map Prod.fst = []) := by
  decide

/-- Claim C2 as amended: model_fields tests only and exclude by Python
truthiness; a truthy (given and non-empty) only retains exactly the declared
names in only, in declaration order; otherwise a truthy exclude drops those
names; otherwise all declared fields are kept; in every case also filtered
to the fields that have a converter. -/
theorem c2_only_exclude_truthiness (m : MModel) (only exclude : Option (List String))
    (fa : List (String × FieldArgs)) (conv : Option Converters) :
    (model_fields m only exclude fa conv).map Prod.fst =
      ((if pyTruthy only then
          m.clsfields.filter (fun x => (only.getD []).contains x.1)
        else if pyTruthy exclude then
          m.clsfields.filter (fun x => !((exclude.getD []).contains x.1))
        else m.clsfields).filter
          (fun x => hasConverter (conv.getD default_converters) x.2)).map Prod.fst := by
  simp only [model_fields]
  split_ifs <;> exact filterMap_convert_keys _ fa _

/-- Counterexample to claim C3: a not-required ModelField converts to a
FormField that carries no Optional validator at all, because conv_ModelField
discards the assembled kwargs. -/
theorem c3_cex_not_required_modelField_no_optional :
    ((convert default_converters (.modelField notReqMeta "Sub" []) none).1.map
       DstField.carriesOptional) = some false := by
  rfl

/-- Claim C3 as amended: for every not-required field, convert appends (not
prepends) an Optional validator to the kwargs validator list, on every
dispatch path; destination fields built from the kwargs carry it — for the
table conversions as the whole validator list when field_args supplies no
validators and after any supplied validators otherwise, and for the five
special scalar conversions (TimeField, EmailField, IPAddressField,
URLField, NullBooleanField, when the table misses their name) as a member
of the constructed field's validators; the composite conversions
(ModelField, ModelCollectionField, FieldCollectionField) discard the
kwargs, and their destination fields carry no Optional validator. -/
theorem c3_optional_appended :
    (∀ (conv : Converters) (n : String) (meta : FieldMeta) (fa : Option FieldArgs)
       (ty : SimpleTy), meta.required = false → lookupConv conv n = some ty →
       suppliedValidators fa = none →
       (convert conv (.scalar n meta) fa).1 =
         some (.simple ty ((convert conv (.scalar n meta) fa).2)) ∧
       ((convert conv (.scalar n meta) fa).2).validators = [.optional]) ∧
    (∀ (conv : Converters) (n : String) (meta : FieldMeta) (fa : Option FieldArgs)
       (ty : SimpleTy) (v : List Validator), meta.required = false →
       lookupConv conv n = some ty → suppliedValidators fa = some v →
       ((convert conv (.scalar n meta) fa).2).validators = v ++ [.optional]) ∧
    (∀ (meta : FieldMeta) (w : String) (fl : List (String × MField))
       (fa : Option FieldArgs),
       ((convert default_converters (.modelField meta w fl) fa).1.map
          DstField.carriesOptional) = some false) ∧
    (∀ (meta : FieldMeta) (w : String) (fl : List (String × MField))
       (fa : Option FieldArgs),
       ((convert default_converters (.modelCollectionField meta w fl) fa).1.map
          DstField.carriesOptional) = some false) ∧
    (∀ (meta : FieldMeta) (inner : MField) (fa : Option FieldArgs),
       ((convert default_converters (.fieldCollectionField meta inner) fa).1.map
          DstField.carriesOptional) = some false) ∧
    (∀ (conv : Converters) (field : MField) (fa : Option FieldArgs),
       field.meta.required = false →
       Validator.optional ∈ ((convert conv field fa).2).validators) ∧
    (∀ (conv : Converters) (n : String) (meta : FieldMeta) (fa : Option FieldArgs),
       n ∈ ["TimeField", "EmailField", "IPAddressField", "URLField",
         "NullBooleanField"] →
       meta.required = false → lookupConv conv n = none →
       ((convert conv (.scalar n meta) fa).1.map DstField.carriesOptional) =
         some true) := by
  refine ⟨?_, ?_, ?_, ?_, ?_, ?_, ?_⟩
  · intro conv n meta fa ty h1 h2 h3
    constructor
    · simp [convert, MField.tyName, h2]
    · simp only [convert, MField.tyName, h2]
      rw [assembleKwargs_validators_none _ _ h3]
      simp [MField.meta, h1]
  · intro conv n meta fa ty v h1 h2 h3
    simp only [convert, MField.tyName, h2]
    rw [assembleKwargs_validators_some _ _ v h3]
    simp [MField.meta, h1]
  · intro meta w fl fa
    simp [convert, MField.tyName,
      show lookupConv default_converters "ModelField" = none from rfl,
      DstField.carriesOptional]
  · intro meta w fl fa
    simp [convert, MField.tyName,
      show lookupConv default_converters "ModelCollectionField" = none from rfl,
      DstField.carriesOptional]
  · intro meta inner fa
    simp [convert, MField.tyName,
      show lookupConv default_converters "FieldCollectionField" = none from rfl,
      DstField.carriesOptional]
  · intro conv field fa h
    obtain ⟨w, hw⟩ := convert_snd_validators conv field fa
    rw [hw]
    exact List.mem_append_left w (optional_mem_assembleKwargs field fa h)
  · intro conv n meta fa hn hr hl
    have hmem : Validator.optional ∈ (assembleKwargs (.scalar n meta) fa).validators :=
      optional_mem_assembleKwargs (.scalar n meta) fa hr
    simp only [List.mem_cons, List.not_mem_nil, or_false] at hn
    rcases hn with h | h | h | h | h <;> subst h <;>
      simp [convert, MField.tyName, hl, DstField.carriesOptional, hmem]

/-- Witness for the amended claim C3 at concrete inputs: a not-required
CharField with no overrides converts to the table TextField conversion whose
validator list is exactly the Optional validator, and a not-required
EmailField (a special scalar conversion) yields a destination field that
carries the Optional validator. -/
theorem c3_optional_appended_witness :
    ((convert default_converters (.scalar "CharField" notReqMeta) none).1 =
      some (.simple .textField
        ((convert default_converters (.scalar "CharField" notReqMeta) none).2)) ∧
    ((convert default_converters (.scalar "CharField" notReqMeta) none).2).validators =
      [.optional]) ∧
    ((convert default_converters (.scalar "EmailField" notReqMeta) none).1.map
       DstField.carriesOptional) = some true :=
  ⟨c3_optional_appended.1 default_converters "CharField" notReqMeta none .textField
    rfl rfl rfl,
   c3_optional_appended.2.2.2.2.2.2 default_converters "EmailField" notReqMeta none
    (by decide) rfl rfl⟩

/-- Claim C4: a field whose type name has neither a table entry nor a
conv_ method converts to no result, and model_fields silently omits exactly
those fields, keeping all others in declaration order. -/
theorem c4_unmapped_silently_omitted :
    (∀ (conv : Converters) (field : MField) (fa : Option FieldArgs),
       (convert conv field fa).1 = none ↔ hasConverter conv field = false) ∧
    (∀ (m : MModel) (fa : List (String × FieldArgs)) (conv : Converters),
       (model_fields m none none fa (some conv)).map Prod.fst =
         (m.clsfields.filter (fun x => hasConverter conv x.2)).map Prod.fst) := by
  constructor
  · intro conv field fa
    have hs := convert_fst_isSome conv field fa
    cases hc : (convert conv field fa).1 with
    | none =>
      simp only [hc, Option.isSome_none] at hs
      rw [← hs]
      simp
    | some d =>
      simp only [hc, Option.isSome_some] at hs
      rw [← hs]
      simp
  · intro m fa conv
    exact model_fields_keys_none_filters m fa conv

/-- The dict literal of coerce_nullbool never matches a plain string other
than "None", "True" and "False". -/
theorem find?_nullbool_str_fails (s : String) (h1 : s ≠ "None") (h2 : s ≠ "True")
    (h3 : s ≠ "False") :
    nullbool_map.find? (fun p => p.1 == PyVal.str s) = none := by
  rw [List.find?_eq_none]
  intro x hx
  simp only [nullbool_map, List.mem_cons, List.not_mem_nil, or_false] at hx
  rcases hx with h | h | h | h <;> subst h <;> simp [beq_iff_eq]
  · exact fun hh => h1 hh.symm
  · exact fun hh => h2 hh.symm
  · exact fun hh => h3 hh.symm

/-- Claim C5: the coercion installed on the NullBooleanField choice field
maps the string "None" to None, None to None, "True" to True, "False" to
False, and every other string to the boolean of its integer value. -/
theorem c5_nullbool_coercion :
    coerce_nullbool (.str "None") = some .null ∧
    coerce_nullbool .null = some .null ∧
    coerce_nullbool (.str "True") = some (.bool true) ∧
    coerce_nullbool (.str "False") = some (.bool false) ∧
    (∀ (s : String) (n : Int), s ≠ "None" → s ≠ "True" → s ≠ "False" →
       pyInt s = some n →
       coerce_nullbool (.str s) = some (.bool (n != 0))) ∧
    (∀ (meta : FieldMeta) (fa : Option FieldArgs),
       (convert default_converters (.scalar "NullBooleanField" meta) fa).1 =
         some (.select nullbool_choices .nullbool
           ((convert default_converters (.scalar "NullBooleanField" meta) fa).2))) := by
  refine ⟨rfl, rfl, rfl, rfl, ?_, ?_⟩
  · intro s n h1 h2 h3 h4
    have hf := find?_nullbool_str_fails s h1 h2 h3
    simp [coerce_nullbool, hf, pyBoolInt, h4]
  · intro meta fa
    simp [convert, MField.tyName,
      show lookupConv default_converters "NullBooleanField" = none from rfl]

/-- Witness for claim C5 at the concrete input "2": a string that is none of
the dict keys is coerced to the boolean of its integer value. -/
theorem c5_nullbool_coercion_witness :
    coerce_nullbool (.str "2") = some (.bool ((2 : Int) != 0)) :=
  c5_nullbool_coercion.2.2.2.2.1 "2" 2 (by decide) (by decide) (by decide) (by rfl)

/-- Counterexample to claim C6: converting a not-required CharField whose
field_args supplies an empty validators list mutates that caller-supplied
list in place (the Optional append lands in it), so the field_args value is
not left unchanged. -/
theorem c6_cex_field_args_mutated :
    fieldArgsAfterConvert default_converters (.scalar "CharField" notReqMeta)
        faValidatorsEmpty ≠ faValidatorsEmpty := by
  decide

/-- Claim C6 as amended: convert leaves the keys and the non-list values of
a caller-supplied field_args dict unchanged, but a caller-supplied
validators or filters list is aliased into kwargs and only ever appended to,
so after the call it holds its original elements followed by whatever
convert appended (the Optional validator, the email, ip_address or url
validators, or the time_only filter). -/
theorem c6_purity_except_aliased_lists (conv : Converters) (field : MField)
    (a : FieldArgs) :
    (fieldArgsAfterConvert conv field a).label = a.label ∧
    (fieldArgsAfterConvert conv field a).description = a.description ∧
    (fieldArgsAfterConvert conv field a).default = a.default ∧
    (a.validators = none → (fieldArgsAfterConvert conv field a).validators = none) ∧
    (a.filters = none → (fieldArgsAfterConvert conv field a).filters = none) ∧
    (∀ v, a.validators = some v →
       ∃ w, (fieldArgsAfterConvert conv field a).validators = some (v ++ w)) ∧
    (∀ l, a.filters = some l →
       ∃ w, (fieldArgsAfterConvert conv field a).filters = some (l ++ w)) := by
  refine ⟨rfl, rfl, rfl, ?_, ?_, ?_, ?_⟩
  · intro h
    simp [fieldArgsAfterConvert, h]
  · intro h
    simp [fieldArgsAfterConvert, h]
  · intro v hv
    obtain ⟨w1, hw1⟩ := convert_snd_validators conv field (some a)
    rw [assembleKwargs_validators_some field (some a) v
      (by simp [suppliedValidators, hv])] at hw1
    exact ⟨(if field.meta.required then [] else [.optional]) ++ w1,
      by simp [fieldArgsAfterConvert, hv, hw1, List.append_assoc]⟩
  · intro l hl
    obtain ⟨w1, hw1⟩ := convert_snd_filters conv field (some a)
    rw [assembleKwargs_filters_some field a l hl] at hw1
    exact ⟨w1, by simp [fieldArgsAfterConvert, hl, hw1]⟩

/-- Witness for the amended claim C6 at a concrete not-required CharField
with a supplied empty validators list. -/
theorem c6_purity_except_aliased_lists_witness :
    ∃ w, (fieldArgsAfterConvert default_converters (.scalar "CharField" notReqMeta)
        faValidatorsEmpty).validators = some ([] ++ w) :=
  (c6_purity_except_aliased_lists default_converters (.scalar "CharField" notReqMeta)
    faValidatorsEmpty).2.2.2.2.2.1 [] rfl

/-- Claim C7: conv_FieldCollectionField recursively converts the inner field
with empty override arguments — whatever per-field overrides were supplied
for the outer field are not forwarded — and wraps the single converted inner
field in a FieldList. -/
theorem c7_fieldcollection_inner_no_overrides (conv : Converters) (meta : FieldMeta)
    (inner : MField) (fa : Option FieldArgs)
    (h : lookupConv conv "FieldCollectionField" = none) :
    (convert conv (.fieldCollectionField meta inner) fa).1 =
      some (.fieldList (convert conv inner none).1) := by
  simp [convert, MField.tyName, h]

/-- Witness for claim C7 at the default converter with a concrete collection
of CharField and a supplied override dict. -/
theorem c7_fieldcollection_inner_no_overrides_witness :
    (convert default_converters
        (.fieldCollectionField plainMeta (.scalar "CharField" plainMeta))
        (some faValidatorsEmpty)).1 =
      some (.fieldList
        (convert default_converters (.scalar "CharField" plainMeta) none).1) :=
  c7_fieldcollection_inner_no_overrides default_converters plainMeta
    (.scalar "CharField" plainMeta) (some faValidatorsEmpty) rfl

/-- Claim C8: two invocations of the builder with identical inputs produce
structurally equivalent field sets — the same names in the same order, the
same destination field classes, and indeed structurally equal results. -/
theorem c8_builder_deterministic (m : MModel) (only exclude : Option (List String))
    (fa : List (String × FieldArgs)) (conv : Option Converters)
    (r1 r2 : List (String × DstField))
    (h1 : r1 = model_fields m only exclude fa conv)
    (h2 : r2 = model_fields m only exclude fa conv) :
    r1.map Prod.fst = r2.map Prod.fst ∧
    r1.map (fun x => dstClass x.2) = r2.map (fun x => dstClass x.2) ∧
    r1 = r2 := by
  subst h1
  subst h2
  exact ⟨rfl, rfl, rfl⟩

/-- Witness for claim C8: two invocations on the test model. -/
theorem c8_builder_deterministic_witness :
    (model_fields testModel none none [] none).map Prod.fst =
      (model_fields testModel none none [] none).map Prod.fst ∧
    (model_fields testModel none none [] none).map (fun x => dstClass x.2) =
      (model_fields testModel none none [] none).map (fun x => dstClass x.2) ∧
    model_fields testModel none none [] none =
      model_fields testModel none none [] none :=
  c8_builder_deterministic testModel none none [] none
    (model_fields testModel none none [] none)
    (model_fields testModel none none [] none) rfl rfl

/-- Claim C9: model_fields tests only by truthiness, so an empty only
collection behaves exactly as if only were not given at all; in particular
it does not restrict the form to zero fields, and a non-empty exclude is
then applied instead. -/
theorem c9_empty_only_falsy (m : MModel) (exclude : Option (List String))
    (fa : List (String × FieldArgs)) (conv : Option Converters) :
    model_fields m (some []) exclude fa conv = model_fields m none exclude fa conv := by
  rfl

/-- Claim C10: conv_ModelField and conv_ModelCollectionField discard the
assembled kwargs entirely — the result is independent of the source field
metadata and of any per-field overrides, its default is the wrapped model
class itself, and the embedded sub-form is built by model_form with the
default converter (convertList), independent of the converter instance
performing the conversion. -/
theorem c10_composite_discards_kwargs (conv : Converters) (meta : FieldMeta)
    (w : String) (fl : List (String × MField)) (fa : Option FieldArgs)
    (h1 : lookupConv conv "ModelField" = none)
    (h2 : lookupConv conv "ModelCollectionField" = none) :
    (convert conv (.modelField meta w fl) fa).1 =
      some (.formField (w ++ "Form") (convertList fl) (.cls w)) ∧
    (convert conv (.modelCollectionField meta w fl) fa).1 =
      some (.fieldList (some (.formField (w ++ "Form") (convertList fl) (.cls w)))) ∧
    model_form ⟨w, fl⟩ none none [] none = ⟨w ++ "Form", convertList fl⟩ := by
  refine ⟨?_, ?_, ?_⟩
  · simp [convert, MField.tyName, h1]
  · simp [convert, MField.tyName, h2]
  · simp [model_form, model_fields_default_eq_convertList]

/-- Witness for claim C10: an empty converter table (a converter instance
different from the default one) with a not-required field carrying a label,
a help text, a default and overrides; the composite results discard all of
it. -/
theorem c10_composite_discards_kwargs_witness :
    (convert ([] : Converters)
        (.modelField ⟨.str "Lbl", .str "Help", false, .int 7⟩ "Sub"
          [("x", .scalar "CharField" plainMeta)])
        (some faValidatorsEmpty)).1 =
      some (.formField "SubForm"
        (convertList [("x", .scalar "CharField" plainMeta)]) (.cls "Sub")) ∧
    (convert ([] : Converters)
        (.modelCollectionField ⟨.str "Lbl", .str "Help", false, .int 7⟩ "Sub"
          [("x", .scalar "CharField" plainMeta)])
        (some faValidatorsEmpty)).1 =
      some (.fieldList (some (.formField "SubForm"
        (convertList [("x", .scalar "CharField" plainMeta)]) (.cls "Sub")))) ∧
    model_form ⟨"Sub", [("x", .scalar "CharField" plainMeta)]⟩ none none [] none =
      ⟨"SubForm", convertList [("x", .scalar "CharField" plainMeta)]⟩ :=
  c10_composite_discards_kwargs [] ⟨.str "Lbl", .str "Help", false, .int 7⟩ "Sub"
    [("x", .scalar "CharField" plainMeta)] (some faValidatorsEmpty) rfl rfl

end Microforms
